import Mathlib

/-!
Shallow embedding of `rocky/config.py`: layered configuration resolution
with key canonicalization, include filters, key mappings, heterogeneous
config sources and a caching resolver (`Config`).

Python values that flow through the pipeline are modelled by `PyVal`;
Python's `None` is `PyVal.vnone`.  A config key is either a flat string or
a tuple of strings (`Key`).  Dictionaries (association order preserved, as
in Python) are modelled as association lists.
-/

namespace Rocky

/-- A Python value as it appears in config payloads: `None`, an int, a
string, a mapping (dict) or an object with attributes. -/
inductive PyVal where
  | vnone
  | vint (n : Int)
  | vstr (s : String)
  | vdict (entries : List (String × PyVal))
  | vobj (attrs : List (String × PyVal))

/-- Translation of the Python `val is None` identity test. -/
def isNone : PyVal → Bool
  | .vnone => true
  | _ => false

/-- A config key as supplied by callers: a flat string or a path
(tuple of strings). -/
inductive Key where
  | str (s : String)
  | path (p : List String)
deriving DecidableEq

/-- Python `str.split("__")` on the character list of a string: split on
leftmost non-overlapping occurrences of the two-character separator. -/
def splitSep : List Char → List (List Char)
  | [] => [[]]
  | [c] => [[c]]
  | c1 :: c2 :: rest =>
    if c1 = '_' ∧ c2 = '_' then
      [] :: splitSep rest
    else
      match splitSep (c2 :: rest) with
      | r :: rs => (c1 :: r) :: rs
      | [] => [[c1]]

/-- Whether the two-character separator `__` occurs in a string. -/
def hasSep : List Char → Bool
  | c1 :: c2 :: rest => (c1 = '_' && c2 = '_') || hasSep (c2 :: rest)
  | _ => false

/-- Translation of `as_path`: convert a string to a tuple of length 1, any other iterable
to a tuple (no splitting on the separator). -/
def as_path : Key → List String
  | .str s => [s]
  | .path p => p

/-- Translation of `as_key`: convert a path of length 1 to its single string, otherwise
return the path unchanged. -/
def as_key : List String → Key
  | [s] => .str s
  | p => .path p

/-- Translation of `_key_to_path`: a string key is split on `__` into a tuple of strings;
any other key goes through `as_path`. -/
def _key_to_path : Key → List String
  | .str s => (splitSep s.data).map (fun cs => String.mk cs)
  | .path p => p

/-- Python `d.get(k, None)` on an association list (first binding wins,
as for a dict built in insertion order). -/
def alist_get {α : Type} [DecidableEq α] {β : Type} : List (α × β) → α → Option β
  | [], _ => none
  | (k, v) :: rest, key => if k = key then some v else alist_get rest key

/-- A key mapping: either a dict from key to key or a callable. -/
inductive KMapping where
  | mdict (entries : List (Key × Key))
  | mfun (f : Key → Key)

/-- Python truthiness of a mapping: `None` and the empty dict are falsy,
a non-empty dict and any callable are truthy. -/
def kmTruthy : KMapping → Bool
  | .mdict es => !es.isEmpty
  | .mfun _ => true

/-- Translation of `_map_path`: return the path, or the mapped path if it matches the
mapping.  A dict mapping is probed with the full path first, then with its
flat form; the result goes through `as_path` (never split on `__`).
A callable is applied to the flat form and its result goes through
`as_path`. -/
def _map_path (mapping : KMapping) (path : List String) : List String :=
  match mapping with
  | .mdict entries =>
    match alist_get entries (.path path) with
    | some mapped => as_path mapped
    | none =>
      match alist_get entries (as_key path) with
      | some mapped => as_path mapped
      | none => path
  | .mfun f => as_path (f (as_key path))

/-- Python truthiness of the `include` filter: `None` and the empty
collection are falsy. -/
def includeTruthy : Option (List Key) → Bool
  | none => false
  | some l => !l.isEmpty

/-- Membership test `path in include or as_key(path) in include`. -/
def includeMember (inc : Option (List Key)) (path : List String) : Bool :=
  match inc with
  | none => false
  | some l => l.contains (Key.path path) || l.contains (as_key path)

/-- Translation of `_filter_map`: check the include filter, then apply the mapping. -/
def _filter_map (inc : Option (List Key)) (mapping : Option KMapping)
    (path : List String) : Option (List String) :=
  if includeTruthy inc && !includeMember inc path then
    none
  else
    match mapping with
    | some m => if kmTruthy m then some (_map_path m path) else some path
    | none => some path

/-- The config source variants of the module, as a closed sum.  Each base
variant (`Dict`, `Props`, `Env`, `PyFile`, `ConfigFile`) carries its
backing payload, display name, optional mapping and optional include
filter.  `FileContent` and `Default` define `get` directly.  `Env` carries
the process environment table as its backing payload; `PyFile` carries the
loaded module's attribute namespace (`none` if loading failed and was
tolerated); `ConfigFile` carries the parsed section/option table. -/
inductive Source where
  | dictS (src : PyVal) (name : String) (mapping : Option KMapping)
      (inc : Option (List Key))
  | propsS (src : PyVal) (name : String) (mapping : Option KMapping)
      (inc : Option (List Key))
  | envS (environ : List (String × String)) (name : String)
      (mapping : Option KMapping) (inc : Option (List Key))
  | pyFileS (src : Option PyVal) (name : String) (mapping : Option KMapping)
      (inc : Option (List Key))
  | configFileS (src : Option (List (String × List (String × String))))
      (name : String) (mapping : Option KMapping) (inc : Option (List Key))
  | fileContentS (value : PyVal) (name : String)
  | defaultS (value : PyVal) (name : String)

/-- The `include` attribute of a source (`None` for `FileContent` and
`Default`, which do not take one). -/
def source_include : Source → Option (List Key)
  | .dictS _ _ _ inc => inc
  | .propsS _ _ _ inc => inc
  | .envS _ _ _ inc => inc
  | .pyFileS _ _ _ inc => inc
  | .configFileS _ _ _ inc => inc
  | .fileContentS _ _ => none
  | .defaultS _ _ => none

/-- The `mapping` attribute of a source. -/
def source_mapping : Source → Option KMapping
  | .dictS _ _ m _ => m
  | .propsS _ _ m _ => m
  | .envS _ _ m _ => m
  | .pyFileS _ _ m _ => m
  | .configFileS _ _ m _ => m
  | .fileContentS _ _ => none
  | .defaultS _ _ => none

/-- Translation of `Dict._get_segment`: `obj.get(segment, None)` when `obj` is a
`Mapping`, else `None`. -/
def dict_get_segment (obj : PyVal) (segment : String) : PyVal :=
  match obj with
  | .vdict es => (alist_get es segment).getD .vnone
  | _ => .vnone

/-- Translation of `Props._get_segment`: `getattr(obj, segment, None)`; only objects with
attributes yield values (builtin attribute names are not modelled). -/
def props_get_segment (obj : PyVal) (segment : String) : PyVal :=
  match obj with
  | .vobj attrs => (alist_get attrs segment).getD .vnone
  | _ => .vnone

/-- Translation of `Base._get_path`: walk the path from `src`, one segment at a time,
stopping as soon as a segment yields `None`. -/
def base_get_path (getSeg : PyVal → String → PyVal) (src : PyVal) :
    List String → PyVal
  | [] => src
  | seg :: rest =>
    let obj := getSeg src seg
    if isNone obj then obj else base_get_path getSeg obj rest

/-- The `_get_path` of each base source variant.  `Env` answers only
length-1 paths from the environment table; `ConfigFile` answers only
length-2 paths (section, option); a `PyFile` whose module failed to load
answers nothing.  (`FileContent` and `Default` never reach `_get_path`;
their case returns the constant value they would return.) -/
def source_get_path (s : Source) (path : List String) : PyVal :=
  match s with
  | .dictS src _ _ _ => base_get_path dict_get_segment src path
  | .propsS src _ _ _ => base_get_path props_get_segment src path
  | .envS environ _ _ _ =>
    match path with
    | [v] =>
      match alist_get environ v with
      | some value => .vstr value
      | none => .vnone
    | _ => .vnone
  | .pyFileS osrc _ _ _ =>
    match osrc with
    | some src => base_get_path props_get_segment src path
    | none => .vnone
  | .configFileS osrc _ _ _ =>
    match osrc, path with
    | some cfg, [sec, opt] =>
      match alist_get cfg sec with
      | some opts =>
        match alist_get opts opt with
        | some v => .vstr v
        | none => .vnone
      | none => .vnone
    | _, _ => .vnone
  | .fileContentS v _ => v
  | .defaultS v _ => v

/-- The `get` method of a source.  `FileContent` and `Default` return their constant
value for every key; the base variants run `Base.get`: canonicalize the
key, run the filter/mapping pipeline, then fetch along the resulting
path. -/
def source_get (s : Source) (key : Key) : PyVal :=
  match s with
  | .fileContentS v _ => v
  | .defaultS v _ => v
  | _ =>
    let path := _key_to_path key
    match _filter_map (source_include s) (source_mapping s) path with
    | some p => source_get_path s p
    | none => .vnone

/-- A resolver cache entry: value, originating source, log-value policy. -/
def CEntry : Type := PyVal × Source × Bool

/-- Translation of `OrderedDict.__setitem__` on the cache: replace in place if the key is
present, else append at the end. -/
def cache_set (c : List (List String × CEntry)) (p : List String)
    (e : CEntry) : List (List String × CEntry) :=
  match c with
  | [] => [(p, e)]
  | (q, e') :: rest =>
    if q = p then (q, e) :: rest else (q, e') :: cache_set rest p e

/-- The `Config` resolver state: the configured source order and the
insertion-ordered cache from canonical path to entry. -/
structure Config where
  sources : List Source
  cache : List (List String × CEntry)

/-- The loop of `get_with_source`: call each source's `get` with the
canonical path, in order; the first result that is not `None` wins. -/
def find_first : List Source → List String → Option (PyVal × Source)
  | [], _ => none
  | s :: rest, path =>
    let value := source_get s (.path path)
    if isNone value then find_first rest path else some (value, s)

/-- Translation of `itertools.chain(sources or self._sources, [] if default is None else
[Default(default)])`: the effective source list of one call. -/
def effective_sources (cfg : Config) (srcs : List Source) (default : PyVal) :
    List Source :=
  (if srcs.isEmpty then cfg.sources else srcs) ++
    (if isNone default then [] else [.defaultS default "default"])

/-- Translation of `Config.get_with_source`: canonicalize the key; a cache entry with a
non-`None` value is returned unconditionally; otherwise iterate the
effective sources, cache and return the first non-`None` result with its
source, or return `(None, None)` without touching the cache.  (Logging is
a side effect with no bearing on the returned data and is not modelled;
the cached log-value flag is.)  Returns (value, source, new state). -/
def get_with_source (cfg : Config) (key : Key) (srcs : List Source)
    (default : PyVal) (log_value : Bool) : PyVal × Option Source × Config :=
  let path := _key_to_path key
  let hit : Option (PyVal × Source) :=
    match alist_get cfg.cache path with
    | some (v, s, _) => if isNone v then none else some (v, s)
    | none => none
  match hit with
  | some (v, s) => (v, some s, cfg)
  | none =>
    match find_first (effective_sources cfg srcs default) path with
    | some (v, s) =>
      (v, some s, { cfg with cache := cache_set cfg.cache path (v, s, log_value) })
    | none => (.vnone, none, cfg)

/-- Translation of `Config.get`: as `get_with_source` but only value and new state. -/
def Config.get (cfg : Config) (key : Key) (srcs : List Source)
    (default : PyVal) (log_value : Bool) : PyVal × Config :=
  let r := get_with_source cfg key srcs default log_value
  (r.1, r.2.2)

/-!
Helper lemmas about the cache and the resolution loop.
-/

theorem alist_get_cache_set_self (c : List (List String × CEntry))
    (p : List String) (e : CEntry) :
    alist_get (cache_set c p e) p = some e := by
  induction c with
  | nil => simp [cache_set, alist_get]
  | cons hd tl ih =>
    obtain ⟨q, e'⟩ := hd
    by_cases h : q = p
    · simp [cache_set, h, alist_get]
    · simp [cache_set, h, alist_get, ih]

theorem find_first_some_not_none (l : List Source) (p : List String)
    (v : PyVal) (s : Source) (h : find_first l p = some (v, s)) :
    isNone v = false := by
  induction l with
  | nil => simp [find_first] at h
  | cons hd tl ih =>
    simp only [find_first] at h
    by_cases hv : isNone (source_get hd (.path p)) = true
    · rw [if_pos hv] at h
      exact ih h
    · rw [if_neg hv] at h
      simp only [Option.some.injEq, Prod.mk.injEq] at h
      obtain ⟨h1, h2⟩ := h
      rw [← h1]
      exact Bool.not_eq_true _ ▸ hv

theorem find_first_append_of_none (l₁ l₂ : List Source) (p : List String)
    (h : ∀ s ∈ l₁, isNone (source_get s (.path p)) = true) :
    find_first (l₁ ++ l₂) p = find_first l₂ p := by
  induction l₁ with
  | nil => simp
  | cons hd tl ih =>
    simp only [List.cons_append, find_first]
    rw [if_pos (h hd (List.mem_cons_self hd tl))]
    exact ih (fun s hs => h s (List.mem_cons_of_mem hd hs))

theorem find_first_of_none (l : List Source) (p : List String)
    (h : ∀ s ∈ l, isNone (source_get s (.path p)) = true) :
    find_first l p = none := by
  have := find_first_append_of_none l [] p h
  simpa [find_first] using this

/-- A successful `get_with_source` (one returning a source) leaves a cache
entry with that value and source at the canonical path, and the value is
not `None`. -/
theorem get_with_source_cache_entry (cfg : Config) (k : Key)
    (srcs : List Source) (d : PyVal) (lv : Bool) (v : PyVal) (s : Source)
    (cfg' : Config) (h : get_with_source cfg k srcs d lv = (v, some s, cfg')) :
    isNone v = false ∧
      ∃ b, alist_get cfg'.cache (_key_to_path k) = some (v, s, b) := by
  unfold get_with_source at h
  dsimp only at h
  split at h
  · rename_i v₀ s₀ hhit
    simp only [Prod.mk.injEq] at h
    obtain ⟨hv, hs, hcfg⟩ := h
    subst hv hcfg
    -- the hit came from a cache entry with a non-None value
    split at hhit
    · rename_i v₁ s₁ b₁ hget
      split at hhit
      · exact absurd hhit (by simp)
      · rename_i hnone
        simp only [Option.some.injEq, Prod.mk.injEq] at hhit
        obtain ⟨hv1, hs1⟩ := hhit
        subst hv1 hs1
        refine ⟨by simpa using hnone, b₁, ?_⟩
        simp only [Option.some.injEq] at hs
        rw [← hs]
        exact hget
    · exact absurd hhit (by simp)
  · split at h
    · rename_i v₀ s₀ hfind
      simp only [Prod.mk.injEq] at h
      obtain ⟨hv, hs, hcfg⟩ := h
      subst hv hcfg
      simp only [Option.some.injEq] at hs
      subst hs
      refine ⟨find_first_some_not_none _ _ _ _ hfind, lv, ?_⟩
      exact alist_get_cache_set_self ..
    · simp at h

/-!
Claim theorems.
-/

/-- C1: resolver cache permanence.  Once a call to `get_with_source` has
resolved a key (returning a source and hence writing or reusing a cache
entry), every later call on any state with that same cache — whatever the
configured source order (so: whatever has happened to any live backing
payload or to `Config.sources`), whatever per-call source list, default
value or log flag — for any key canonicalizing to the same path, returns
the originally cached value and source and leaves the state unchanged. -/
theorem C1_cache_permanence (cfg : Config) (k : Key) (srcs : List Source)
    (d : PyVal) (lv : Bool) (v : PyVal) (s : Source) (cfg₁ : Config)
    (h : get_with_source cfg k srcs d lv = (v, some s, cfg₁))
    (cfg₂ : Config) (hc : cfg₂.cache = cfg₁.cache)
    (k₂ : Key) (hk : _key_to_path k₂ = _key_to_path k)
    (srcs₂ : List Source) (d₂ : PyVal) (lv₂ : Bool) :
    get_with_source cfg₂ k₂ srcs₂ d₂ lv₂ = (v, some s, cfg₂) := by
  obtain ⟨hv, b, hb⟩ := get_with_source_cache_entry cfg k srcs d lv v s cfg₁ h
  unfold get_with_source
  dsimp only
  rw [hk, hc, hb]
  simp [hv]

/-- C1 witness: resolve `foo` to `27` from a dict source, then look it up
again after the backing payload reads `28`, with a different per-call
source list, a default of `5`, and a different log flag: still `27` from
the original source, state unchanged. -/
theorem C1_cache_permanence_witness :
    get_with_source
      ⟨[.dictS (.vdict [("foo", .vint 28)]) "dict" none none],
       [(["foo"],
         (.vint 27, .dictS (.vdict [("foo", .vint 27)]) "dict" none none,
          true))]⟩
      (.str "foo") [.dictS (.vdict [("foo", .vint 99)]) "d2" none none]
      (.vint 5) false
    = (.vint 27, some (.dictS (.vdict [("foo", .vint 27)]) "dict" none none),
       ⟨[.dictS (.vdict [("foo", .vint 28)]) "dict" none none],
        [(["foo"],
          (.vint 27, .dictS (.vdict [("foo", .vint 27)]) "dict" none none,
           true))]⟩) :=
  C1_cache_permanence
    ⟨[.dictS (.vdict [("foo", .vint 27)]) "dict" none none], []⟩
    (.str "foo") [] .vnone true (.vint 27)
    (.dictS (.vdict [("foo", .vint 27)]) "dict" none none)
    ⟨[.dictS (.vdict [("foo", .vint 27)]) "dict" none none],
     [(["foo"],
       (.vint 27, .dictS (.vdict [("foo", .vint 27)]) "dict" none none,
        true))]⟩
    rfl
    ⟨[.dictS (.vdict [("foo", .vint 28)]) "dict" none none],
     [(["foo"],
       (.vint 27, .dictS (.vdict [("foo", .vint 27)]) "dict" none none,
        true))]⟩
    rfl (.str "foo") rfl
    [.dictS (.vdict [("foo", .vint 99)]) "d2" none none] (.vint 5) false

/-- C2: key canonicalization at the source interface.  For a `Dict` source
with payload `{"A": {"B": 23}}` and no filter or mapping: the flat string
`"A__B"` is split on `__` into the path `("A","B")` and yields `23`; the
explicit path `("A","B")` yields `23`; the explicit length-1 path
`("A__B",)` is taken literally, never re-split, and yields the null
result. -/
theorem C2_key_canonicalization :
    source_get
      (.dictS (.vdict [("A", .vdict [("B", .vint 23)])]) "dict" none none)
      (.str "A__B") = .vint 23 ∧
    source_get
      (.dictS (.vdict [("A", .vdict [("B", .vint 23)])]) "dict" none none)
      (.path ["A", "B"]) = .vint 23 ∧
    source_get
      (.dictS (.vdict [("A", .vdict [("B", .vint 23)])]) "dict" none none)
      (.path ["A__B"]) = .vnone :=
  ⟨rfl, rfl, rfl⟩

/-- C3: source precedence and per-call override.  For a resolver with
sources `[s1, s2]` where both resolve the key, an uncached `get` returns
`s1`'s value with `s1` as the source, and an uncached call with per-call
source list `[s2]` returns `s2`'s value with `s2` as the source. -/
theorem C3_source_precedence (s1 s2 : Source)
    (cache : List (List String × CEntry)) (k : Key) (lv : Bool)
    (hnc : alist_get cache (_key_to_path k) = none)
    (h1 : isNone (source_get s1 (.path (_key_to_path k))) = false)
    (h2 : isNone (source_get s2 (.path (_key_to_path k))) = false) :
    ((get_with_source ⟨[s1, s2], cache⟩ k [] .vnone lv).1
        = source_get s1 (.path (_key_to_path k)) ∧
      (get_with_source ⟨[s1, s2], cache⟩ k [] .vnone lv).2.1 = some s1) ∧
    ((get_with_source ⟨[s1, s2], cache⟩ k [s2] .vnone lv).1
        = source_get s2 (.path (_key_to_path k)) ∧
      (get_with_source ⟨[s1, s2], cache⟩ k [s2] .vnone lv).2.1 = some s2) := by
  constructor
  · unfold get_with_source
    dsimp only
    rw [hnc]
    simp [effective_sources, find_first, h1]
  · unfold get_with_source
    dsimp only
    rw [hnc]
    simp [effective_sources, find_first, h2]

/-- C3 witness: both sources define `foo`; the configured order yields
`s1`'s value `1` from `s1`; the per-call override `[s2]` yields `s2`'s
value `2` from `s2`. -/
theorem C3_source_precedence_witness :
    ((get_with_source
        ⟨[.dictS (.vdict [("foo", .vint 1)]) "s1" none none,
          .dictS (.vdict [("foo", .vint 2)]) "s2" none none], []⟩
        (.str "foo") [] .vnone true).1 = .vint 1 ∧
      (get_with_source
        ⟨[.dictS (.vdict [("foo", .vint 1)]) "s1" none none,
          .dictS (.vdict [("foo", .vint 2)]) "s2" none none], []⟩
        (.str "foo") [] .vnone true).2.1
        = some (.dictS (.vdict [("foo", .vint 1)]) "s1" none none)) ∧
    ((get_with_source
        ⟨[.dictS (.vdict [("foo", .vint 1)]) "s1" none none,
          .dictS (.vdict [("foo", .vint 2)]) "s2" none none], []⟩
        (.str "foo") [.dictS (.vdict [("foo", .vint 2)]) "s2" none none]
        .vnone true).1 = .vint 2 ∧
      (get_with_source
        ⟨[.dictS (.vdict [("foo", .vint 1)]) "s1" none none,
          .dictS (.vdict [("foo", .vint 2)]) "s2" none none], []⟩
        (.str "foo") [.dictS (.vdict [("foo", .vint 2)]) "s2" none none]
        .vnone true).2.1
        = some (.dictS (.vdict [("foo", .vint 2)]) "s2" none none)) :=
  C3_source_precedence
    (.dictS (.vdict [("foo", .vint 1)]) "s1" none none)
    (.dictS (.vdict [("foo", .vint 2)]) "s2" none none)
    [] (.str "foo") true rfl rfl rfl

/-- C4: default fallback is synthesized, wins last, and is cached.  When
every configured source yields `None` for an uncached key and a non-`None`
default is supplied, `get_with_source` returns the default with a
synthesized `Default` source, writes a cache entry at the canonical path,
and a later call with no default returns the default from the cache. -/
theorem C4_default_fallback (cfg : Config) (k : Key) (d : PyVal)
    (lv lv₂ : Bool)
    (hnc : alist_get cfg.cache (_key_to_path k) = none)
    (hall : ∀ s ∈ cfg.sources,
      isNone (source_get s (.path (_key_to_path k))) = true)
    (hd : isNone d = false) :
    get_with_source cfg k [] d lv
      = (d, some (.defaultS d "default"),
         { cfg with cache := cache_set cfg.cache (_key_to_path k) (d, .defaultS d "default", lv) }) ∧
    get_with_source
      { cfg with cache := cache_set cfg.cache (_key_to_path k) (d, .defaultS d "default", lv) }
      k [] .vnone lv₂
      = (d, some (.defaultS d "default"),
         { cfg with cache := cache_set cfg.cache (_key_to_path k) (d, .defaultS d "default", lv) }) := by
  have heff : effective_sources cfg [] d
      = cfg.sources ++ [.defaultS d "default"] := by
    simp [effective_sources, hd]
  have hff : find_first (cfg.sources ++ [.defaultS d "default"])
      (_key_to_path k) = some (d, .defaultS d "default") := by
    rw [find_first_append_of_none _ _ _ hall]
    simp [find_first, source_get, hd]
  constructor
  · unfold get_with_source
    dsimp only
    rw [hnc, heff, hff]
  · unfold get_with_source
    dsimp only
    rw [alist_get_cache_set_self]
    simp [hd]

/-- C4 witness: a resolver with one dict source lacking `bar`;
`get_with_source` with default `23` returns `23` from the synthesized
`Default` source and caches it; a later call with no default still
returns `23` from the cache. -/
theorem C4_default_fallback_witness :
    get_with_source
      ⟨[.dictS (.vdict []) "dict" none none], []⟩ (.str "bar") []
      (.vint 23) true
      = (.vint 23, some (.defaultS (.vint 23) "default"),
         ⟨[.dictS (.vdict []) "dict" none none],
          [(["bar"], (.vint 23, .defaultS (.vint 23) "default", true))]⟩) ∧
    get_with_source
      ⟨[.dictS (.vdict []) "dict" none none],
       [(["bar"], (.vint 23, .defaultS (.vint 23) "default", true))]⟩
      (.str "bar") [] .vnone false
      = (.vint 23, some (.defaultS (.vint 23) "default"),
         ⟨[.dictS (.vdict []) "dict" none none],
          [(["bar"], (.vint 23, .defaultS (.vint 23) "default", true))]⟩) :=
  C4_default_fallback
    ⟨[.dictS (.vdict []) "dict" none none], []⟩ (.str "bar")
    (.vint 23) true false rfl
    (by intro s hs; obtain rfl := List.mem_singleton.mp hs; rfl) rfl

/-- C5: the include-filter check precedes the mapping and short-circuits.
For any source variant carrying a non-empty include filter, if neither the
canonical path of the requested key nor its flat form is a member of the
filter, `get` returns the null result — whatever the source's mapping and
backing payload (so the mapping is never applied, even if the mapped-to
key would pass the filter or exist in the payload). -/
theorem C5_filter_short_circuit (s : Source) (inc : List Key) (k : Key)
    (hinc : source_include s = some inc)
    (hne : inc.isEmpty = false)
    (hp : inc.contains (Key.path (_key_to_path k)) = false)
    (hf : inc.contains (as_key (_key_to_path k)) = false) :
    source_get s k = .vnone := by
  have hp' : Key.path (_key_to_path k) ∉ inc := by simpa using hp
  have hf' : as_key (_key_to_path k) ∉ inc := by simpa using hf
  have hfm : ∀ m, _filter_map (some inc) m (_key_to_path k) = none := by
    intro m
    simp [_filter_map, includeTruthy, includeMember, hne, hp', hf']
  cases s with
  | dictS src name m i =>
    simp only [source_include] at hinc
    subst hinc
    simp [source_get, source_include, source_mapping, hfm]
  | propsS src name m i =>
    simp only [source_include] at hinc
    subst hinc
    simp [source_get, source_include, source_mapping, hfm]
  | envS environ name m i =>
    simp only [source_include] at hinc
    subst hinc
    simp [source_get, source_include, source_mapping, hfm]
  | pyFileS osrc name m i =>
    simp only [source_include] at hinc
    subst hinc
    simp [source_get, source_include, source_mapping, hfm]
  | configFileS osrc name m i =>
    simp only [source_include] at hinc
    subst hinc
    simp [source_get, source_include, source_mapping, hfm]
  | fileContentS v name => simp [source_include] at hinc
  | defaultS v name => simp [source_include] at hinc

/-- C5 witness: a dict source whose filter allows only `X`, whose mapping
sends `Y` to `X`, and whose payload has `X = 1`: `get("Y")` is still the
null result — the filter blocks the key before the mapping could apply. -/
theorem C5_filter_short_circuit_witness :
    source_get
      (.dictS (.vdict [("X", .vint 1)]) "dict"
        (some (.mdict [(.str "Y", .str "X")])) (some [.str "X"]))
      (.str "Y") = .vnone :=
  C5_filter_short_circuit
    (.dictS (.vdict [("X", .vint 1)]) "dict"
      (some (.mdict [(.str "Y", .str "X")])) (some [.str "X"]))
    [.str "X"] (.str "Y") rfl rfl rfl rfl

/-- C8: resolution failure is silent, null and stateless.  When the key is
uncached and every effective source of the call (the per-call or
configured sources, plus the synthesized default source when a non-`None`
default is supplied) yields `None`, `get_with_source` returns the null
value with no source and the state — in particular the cache — is
unchanged. -/
theorem C8_silent_failure (cfg : Config) (k : Key) (srcs : List Source)
    (d : PyVal) (lv : Bool)
    (hnc : alist_get cfg.cache (_key_to_path k) = none)
    (hall : ∀ s ∈ effective_sources cfg srcs d,
      isNone (source_get s (.path (_key_to_path k))) = true) :
    get_with_source cfg k srcs d lv = (.vnone, none, cfg) := by
  unfold get_with_source
  dsimp only
  rw [hnc, find_first_of_none _ _ hall]

/-- C8 witness: a resolver with one dict source lacking `bar` and no
default: the call returns the null value, no source, and the state
(with its empty cache) unchanged. -/
theorem C8_silent_failure_witness :
    get_with_source
      ⟨[.dictS (.vdict []) "dict" none none], []⟩ (.str "bar") [] .vnone true
      = (.vnone, none, ⟨[.dictS (.vdict []) "dict" none none], []⟩) :=
  C8_silent_failure
    ⟨[.dictS (.vdict []) "dict" none none], []⟩ (.str "bar") [] .vnone true
    rfl
    (by
      intro s hs
      simp [effective_sources, isNone] at hs
      subst hs
      rfl)

/-- C6 counterexample: a function mapping that returns the flat string
`"A__B"` produces the literal length-1 path `("A__B",)`, not
`("A","B")` — the mapping's result is converted with `as_path` and never
split on the separator — so the dict fetch misses even though the payload
holds a value at `("A","B")`. -/
theorem C6_function_mapping_counterexample :
    _map_path (.mfun (fun _ => .str "A__B")) ["X"] = ["A__B"] ∧
    (["A__B"] : List String) ≠ ["A", "B"] ∧
    source_get
      (.dictS (.vdict [("A", .vdict [("B", .vint 23)])]) "mapped-dict"
        (some (.mfun (fun _ => .str "A__B"))) none)
      (.str "X") = .vnone ∧
    base_get_path dict_get_segment (.vdict [("A", .vdict [("B", .vint 23)])])
      ["A", "B"] = .vint 23 :=
  ⟨rfl, by decide, rfl, rfl⟩

/-- C6 amended: for every source with a function (callable) mapping, when
the requested key passes the source's include filter, the mapping is
applied to the flat-name view of the canonical path and its result is
converted to a path by `as_path` before being handed to the
source-specific fetch; and `as_path` turns a returned flat string into the
literal length-1 path — it is never split on the two-character
separator. -/
theorem C6_function_mapping (s : Source) (f : Key → Key) (k : Key)
    (hm : source_mapping s = some (.mfun f))
    (hinc : (includeTruthy (source_include s) &&
      !includeMember (source_include s) (_key_to_path k)) = false) :
    source_get s k
      = source_get_path s (as_path (f (as_key (_key_to_path k)))) ∧
    ∀ r : String, as_path (.str r) = [r] := by
  refine ⟨?_, fun r => rfl⟩
  have hfm : _filter_map (source_include s) (source_mapping s)
      (_key_to_path k) = some (as_path (f (as_key (_key_to_path k)))) := by
    rw [hm]
    unfold _filter_map
    rw [if_neg (by simp [hinc])]
    rfl
  cases s with
  | dictS src name m inc =>
    simp only [source_get]
    rw [hfm]
  | propsS src name m inc =>
    simp only [source_get]
    rw [hfm]
  | envS environ name m inc =>
    simp only [source_get]
    rw [hfm]
  | pyFileS osrc name m inc =>
    simp only [source_get]
    rw [hfm]
  | configFileS osrc name m inc =>
    simp only [source_get]
    rw [hfm]
  | fileContentS v name => simp [source_mapping] at hm
  | defaultS v name => simp [source_mapping] at hm

/-- C6 witness: on a `Dict` source with no filter, the function mapping
returning `"A__B"` makes `get("X")` fetch at the literal path
`("A__B",)`; on an `Env` source whose filter admits `X`, the mapping
returning `"HOME"` makes `get("X")` fetch at `("HOME",)`; and `as_path`
leaves the separator-carrying string `"A__B"` as one segment. -/
theorem C6_function_mapping_witness :
    source_get
      (.dictS (.vdict [("A", .vdict [("B", .vint 23)])]) "mapped-dict"
        (some (.mfun (fun _ => .str "A__B"))) none)
      (.str "X")
      = source_get_path
          (.dictS (.vdict [("A", .vdict [("B", .vint 23)])]) "mapped-dict"
            (some (.mfun (fun _ => .str "A__B"))) none)
          ["A__B"] ∧
    source_get
      (.envS [("HOME", "/root")] "env" (some (.mfun (fun _ => .str "HOME")))
        (some [.str "X"]))
      (.str "X")
      = source_get_path
          (.envS [("HOME", "/root")] "env"
            (some (.mfun (fun _ => .str "HOME"))) (some [.str "X"]))
          ["HOME"] ∧
    as_path (.str "A__B") = ["A__B"] :=
  ⟨(C6_function_mapping
      (.dictS (.vdict [("A", .vdict [("B", .vint 23)])]) "mapped-dict"
        (some (.mfun (fun _ => .str "A__B"))) none)
      (fun _ => .str "A__B") (.str "X") rfl rfl).1,
   (C6_function_mapping
      (.envS [("HOME", "/root")] "env" (some (.mfun (fun _ => .str "HOME")))
        (some [.str "X"]))
      (fun _ => .str "HOME") (.str "X") rfl rfl).1,
   (C6_function_mapping
      (.dictS (.vdict [("A", .vdict [("B", .vint 23)])]) "mapped-dict"
        (some (.mfun (fun _ => .str "A__B"))) none)
      (fun _ => .str "A__B") (.str "X") rfl rfl).2 "A__B"⟩

/-- C7 counterexample: an `Env` source with a mapping rewriting the
length-2 path `("A","B")` to the flat name `"HOME"` returns the value of
`HOME` for the requested length-2 path — it is not the case that the
environment source's `get` returns the null result for every requested
path of length other than 1 regardless of its mapping. -/
theorem C7_env_counterexample :
    source_get
      (.envS [("HOME", "/root")] "env"
        (some (.mdict [(.path ["A", "B"], .str "HOME")])) none)
      (.path ["A", "B"]) = .vstr "/root" ∧
    PyVal.vstr "/root" ≠ PyVal.vnone :=
  ⟨rfl, fun h => PyVal.noConfusion h⟩

/-- If the source has no mapping, `_filter_map` either rejects the path or
passes it through unchanged. -/
theorem _filter_map_no_mapping (inc : Option (List Key)) (q p : List String)
    (h : _filter_map inc none q = some p) : p = q := by
  unfold _filter_map at h
  split at h
  · cases h
  · simp only [Option.some.injEq] at h
    exact h.symm

/-- C7 amended: `Env._get_path` yields the null result for every path of
length other than 1, so for an `Env` source with no mapping — whatever its
filter and whatever variables the environment holds, including one named
by the flattened form of the key — `get` returns the null result for every
requested key whose canonical path has length ≠ 1; and with no filter or
mapping, `get` of a length-1 path returns the named variable's value, or
the null result when it is unset.  (A mapping, however, may reshape the
path before the fetch.) -/
theorem C7_env_path_shape (environ : List (String × String)) (name : String)
    (inc : Option (List Key)) (k : Key)
    (h : (_key_to_path k).length ≠ 1) :
    source_get (.envS environ name none inc) k = .vnone ∧
    ∀ v : String, source_get (.envS environ name none none) (.path [v])
      = (match alist_get environ v with
         | some value => .vstr value
         | none => .vnone) := by
  constructor
  · show (match _filter_map inc none (_key_to_path k) with
      | some p => source_get_path (.envS environ name none inc) p
      | none => PyVal.vnone) = PyVal.vnone
    cases hfm : _filter_map inc none (_key_to_path k) with
    | none => rfl
    | some p =>
      obtain rfl := _filter_map_no_mapping inc (_key_to_path k) p hfm
      generalize hq : _key_to_path k = q at h ⊢
      match q, h with
      | [], _ => rfl
      | [v], h => exact absurd rfl h
      | a :: b :: t, _ => rfl
  · intro v
    rfl

/-- C7 witness: the environment holds `A__B=42`; the requested path
`("A","B")` has length 2 and yields the null result even though the
flattened name exists, while the literal length-1 path `("A__B",)`
returns `42`. -/
theorem C7_env_path_shape_witness :
    source_get (.envS [("A__B", "42")] "env" none none) (.path ["A", "B"])
      = .vnone ∧
    source_get (.envS [("A__B", "42")] "env" none none) (.path ["A__B"])
      = .vstr "42" :=
  ⟨(C7_env_path_shape [("A__B", "42")] "env" none (.path ["A", "B"])
      (by decide)).1,
   (C7_env_path_shape [("A__B", "42")] "env" none (.path ["A", "B"])
      (by decide)).2 "A__B"⟩

/-- Splitting a string that does not contain the separator yields the
string itself as the only piece. -/
theorem splitSep_of_no_sep : ∀ (s : List Char), hasSep s = false →
    splitSep s = [s]
  | [], _ => rfl
  | [_], _ => rfl
  | c1 :: c2 :: rest, h => by
    simp only [hasSep, Bool.or_eq_false_iff] at h
    obtain ⟨h1, h2⟩ := h
    have hc : ¬(c1 = '_' ∧ c2 = '_') := by
      intro hc
      rw [hc.1, hc.2] at h1
      simp at h1
    have ih := splitSep_of_no_sep (c2 :: rest) h2
    simp only [splitSep, if_neg hc, ih]

/-- C9: path-utility algebra.  `_key_to_path` is idempotent — converting
an already-canonical path yields it unchanged — and `as_key` after
`_key_to_path` round-trips every single-segment flat key (a string not
containing the two-character separator) unchanged. -/
theorem C9_path_algebra :
    (∀ x : Key, _key_to_path (.path (_key_to_path x)) = _key_to_path x) ∧
    (∀ s : String, hasSep s.data = false →
      as_key (_key_to_path (.str s)) = .str s) := by
  constructor
  · intro x
    rfl
  · intro s h
    simp only [_key_to_path, splitSep_of_no_sep s.data h, List.map]
    rfl

/-- C9 witness: idempotence at the key `"A__B"` and the round-trip at the
separator-free key `"name"`. -/
theorem C9_path_algebra_witness :
    _key_to_path (.path (_key_to_path (.str "A__B")))
      = _key_to_path (.str "A__B") ∧
    as_key (_key_to_path (.str "name")) = .str "name" :=
  ⟨C9_path_algebra.1 (.str "A__B"), C9_path_algebra.2 "name" rfl⟩

/-- Resolution skips a source whose `get` yields `None` for the canonical
path: value, source and resulting cache are as if that source were absent
from the configured order. -/
theorem get_with_source_cons_null (s1 : Source) (rest : List Source)
    (cache : List (List String × CEntry)) (k : Key) (d : PyVal) (lv : Bool)
    (h : isNone (source_get s1 (.path (_key_to_path k))) = true) :
    ((get_with_source ⟨s1 :: rest, cache⟩ k [] d lv).1,
      (get_with_source ⟨s1 :: rest, cache⟩ k [] d lv).2.1,
      (get_with_source ⟨s1 :: rest, cache⟩ k [] d lv).2.2.cache)
    = ((get_with_source ⟨rest, cache⟩ k [] d lv).1,
        (get_with_source ⟨rest, cache⟩ k [] d lv).2.1,
        (get_with_source ⟨rest, cache⟩ k [] d lv).2.2.cache) := by
  have heq : find_first (effective_sources ⟨s1 :: rest, cache⟩ [] d)
        (_key_to_path k)
      = find_first (effective_sources ⟨rest, cache⟩ [] d) (_key_to_path k) := by
    show find_first
        (s1 :: (rest ++ (if isNone d = true then [] else [.defaultS d "default"])))
        (_key_to_path k)
      = find_first
          (rest ++ (if isNone d = true then [] else [.defaultS d "default"]))
          (_key_to_path k)
    simp [find_first, h]
  unfold get_with_source
  dsimp only
  rw [heq]
  cases halist : alist_get cache (_key_to_path k) with
  | none =>
    dsimp only
    cases hff : find_first (effective_sources ⟨rest, cache⟩ [] d)
        (_key_to_path k) with
    | none => rfl
    | some vs => rfl
  | some e =>
    obtain ⟨v, s, b⟩ := e
    dsimp only
    by_cases hv : isNone v = true
    · rw [if_pos hv]
      cases hff : find_first (effective_sources ⟨rest, cache⟩ [] d)
          (_key_to_path k) with
      | none => rfl
      | some vs => rfl
    · rw [if_neg hv]

/-- A call of `get_with_source` whose returned value is `None` reports no
source and leaves the resolver state untouched. -/
theorem get_with_source_null_no_source (cfg : Config) (k : Key)
    (srcs : List Source) (d : PyVal) (lv : Bool)
    (h : isNone (get_with_source cfg k srcs d lv).1 = true) :
    (get_with_source cfg k srcs d lv).2.1 = none ∧
    (get_with_source cfg k srcs d lv).2.2 = cfg := by
  cases halist : alist_get cfg.cache (_key_to_path k) with
  | some e =>
    obtain ⟨v, s, b⟩ := e
    by_cases hv : isNone v = true
    · cases hff : find_first (effective_sources cfg srcs d) (_key_to_path k) with
      | some vs =>
        obtain ⟨v', s'⟩ := vs
        have hg : get_with_source cfg k srcs d lv
            = (v', some s', { cfg with cache := cache_set cfg.cache (_key_to_path k) (v', s', lv) }) := by
          unfold get_with_source
          dsimp only
          rw [halist]
          dsimp only
          rw [if_pos hv]
          dsimp only
          rw [hff]
        rw [hg] at h
        rw [find_first_some_not_none _ _ _ _ hff] at h
        cases h
      | none =>
        have hg : get_with_source cfg k srcs d lv = (.vnone, none, cfg) := by
          unfold get_with_source
          dsimp only
          rw [halist]
          dsimp only
          rw [if_pos hv]
          dsimp only
          rw [hff]
        rw [hg]
        exact ⟨rfl, rfl⟩
    · have hg : get_with_source cfg k srcs d lv = (v, some s, cfg) := by
        unfold get_with_source
        dsimp only
        rw [halist]
        dsimp only
        rw [if_neg hv]
      rw [hg] at h
      exact absurd h hv
  | none =>
    cases hff : find_first (effective_sources cfg srcs d) (_key_to_path k) with
    | some vs =>
      obtain ⟨v', s'⟩ := vs
      have hg : get_with_source cfg k srcs d lv
          = (v', some s', { cfg with cache := cache_set cfg.cache (_key_to_path k) (v', s', lv) }) := by
        unfold get_with_source
        dsimp only
        rw [halist]
        dsimp only
        rw [hff]
      rw [hg] at h
      rw [find_first_some_not_none _ _ _ _ hff] at h
      cases h
    | none =>
      have hg : get_with_source cfg k srcs d lv = (.vnone, none, cfg) := by
        unfold get_with_source
        dsimp only
        rw [halist]
        dsimp only
        rw [hff]
      rw [hg]
      exact ⟨rfl, rfl⟩

/-- C10: a stored null is indistinguishable from absence.  A dict entry
bound to `None` (or an object attribute equal to `None`) makes the
source's `get` return the null result; the resolver then falls through
past such a source exactly as if the key were missing (same value, source
and cache); and a resolution whose value is null — in particular when
`default=None` means no default source is synthesized — never reports a
source and never writes a cache entry. -/
theorem C10_null_is_absence :
    (∀ (es : List (String × PyVal)) (name : String) (seg : String),
      alist_get es seg = some .vnone →
      source_get (.dictS (.vdict es) name none none) (.path [seg]) = .vnone) ∧
    (∀ (attrs : List (String × PyVal)) (name : String) (seg : String),
      alist_get attrs seg = some .vnone →
      source_get (.propsS (.vobj attrs) name none none) (.path [seg]) = .vnone) ∧
    (∀ (s1 : Source) (rest : List Source)
      (cache : List (List String × CEntry)) (k : Key) (d : PyVal) (lv : Bool),
      isNone (source_get s1 (.path (_key_to_path k))) = true →
      ((get_with_source ⟨s1 :: rest, cache⟩ k [] d lv).1,
        (get_with_source ⟨s1 :: rest, cache⟩ k [] d lv).2.1,
        (get_with_source ⟨s1 :: rest, cache⟩ k [] d lv).2.2.cache)
        = ((get_with_source ⟨rest, cache⟩ k [] d lv).1,
            (get_with_source ⟨rest, cache⟩ k [] d lv).2.1,
            (get_with_source ⟨rest, cache⟩ k [] d lv).2.2.cache)) ∧
    (∀ (cfg : Config) (k : Key) (srcs : List Source) (d : PyVal) (lv : Bool),
      isNone (get_with_source cfg k srcs d lv).1 = true →
      (get_with_source cfg k srcs d lv).2.1 = none ∧
      (get_with_source cfg k srcs d lv).2.2 = cfg) := by
  refine ⟨?_, ?_, ?_, ?_⟩
  · intro es name seg hlook
    simp [source_get, source_include, source_mapping, _filter_map,
      includeTruthy, source_get_path, base_get_path, dict_get_segment, hlook]
  · intro attrs name seg hlook
    simp [source_get, source_include, source_mapping, _filter_map,
      includeTruthy, source_get_path, base_get_path, props_get_segment, hlook]
  · intro s1 rest cache k d lv h
    exact get_with_source_cons_null s1 rest cache k d lv h
  · intro cfg k srcs d lv h
    exact get_with_source_null_no_source cfg k srcs d lv h

/-- C10 witness: a dict entry `a = None` yields the null result; so does
an attribute `a = None`; a resolver whose first source binds `a` to `None`
resolves `a` from the second source exactly as if the first lacked the
key; a resolver over one empty dict source with no default returns null
with no source and an unchanged state. -/
theorem C10_null_is_absence_witness :
    source_get (.dictS (.vdict [("a", .vnone)]) "dict" none none)
      (.path ["a"]) = .vnone ∧
    source_get (.propsS (.vobj [("a", .vnone)]) "object" none none)
      (.path ["a"]) = .vnone ∧
    ((get_with_source
        ⟨[.dictS (.vdict [("a", .vnone)]) "dict" none none,
          .dictS (.vdict [("a", .vint 7)]) "d2" none none], []⟩
        (.str "a") [] .vnone true).1,
      (get_with_source
        ⟨[.dictS (.vdict [("a", .vnone)]) "dict" none none,
          .dictS (.vdict [("a", .vint 7)]) "d2" none none], []⟩
        (.str "a") [] .vnone true).2.1,
      (get_with_source
        ⟨[.dictS (.vdict [("a", .vnone)]) "dict" none none,
          .dictS (.vdict [("a", .vint 7)]) "d2" none none], []⟩
        (.str "a") [] .vnone true).2.2.cache)
      = ((get_with_source
          ⟨[.dictS (.vdict [("a", .vint 7)]) "d2" none none], []⟩
          (.str "a") [] .vnone true).1,
        (get_with_source
          ⟨[.dictS (.vdict [("a", .vint 7)]) "d2" none none], []⟩
          (.str "a") [] .vnone true).2.1,
        (get_with_source
          ⟨[.dictS (.vdict [("a", .vint 7)]) "d2" none none], []⟩
          (.str "a") [] .vnone true).2.2.cache) ∧
    ((get_with_source ⟨[.dictS (.vdict []) "dict" none none], []⟩
        (.str "a") [] .vnone true).2.1 = none ∧
      (get_with_source ⟨[.dictS (.vdict []) "dict" none none], []⟩
        (.str "a") [] .vnone true).2.2
        = ⟨[.dictS (.vdict []) "dict" none none], []⟩) :=
  ⟨C10_null_is_absence.1 [("a", .vnone)] "dict" "a" rfl,
   C10_null_is_absence.2.1 [("a", .vnone)] "object" "a" rfl,
   C10_null_is_absence.2.2.1
     (.dictS (.vdict [("a", .vnone)]) "dict" none none)
     [.dictS (.vdict [("a", .vint 7)]) "d2" none none] [] (.str "a")
     .vnone true rfl,
   C10_null_is_absence.2.2.2
     ⟨[.dictS (.vdict []) "dict" none none], []⟩ (.str "a") [] .vnone true
     rfl⟩

end Rocky

